import Mathlib

/-!
Verification of the wordle-agent repository.

The repository is a set of Python scripts that play Wordle through a
browser.  Strings are embedded as `List Char`; the browser page is
abstracted as the list of tile `data-state` attribute strings (the only
part of the DOM the programs read), supplied by an environment function,
and the LLM is abstracted as an environment function producing its raw
text (or parsed action), since both are external collaborators.

Each Python function that the claims touch is translated here, keeping
its source name.  File-specific state lives in the namespaces `Level0`
(level_0_wordle_agent.py), `Level1` (level_1_wordle_agent.py), `MainPy`
(main.py), `Workflow` (wordle_workflow.py) and `Waw`
(wordle-ai-workflow/main.py); code that is verbatim-identical across
files (tile reading, win check, the ANSWER-marker scan) is defined once
at top level.
-/

/-- Python `str.strip` whitespace class (ASCII part, which is all the
programs ever meet): space, tab, newline, carriage return, vertical tab,
form feed. -/
def isPySpace (c : Char) : Bool :=
  c = ' ' || c = '\t' || c = '\n' || c = '\r' || c = '\x0b' || c = '\x0c'

/-- A regex `\w` word character: `[A-Za-z0-9_]`. -/
def isWordChar (c : Char) : Bool :=
  c.isAlphanum || c = '_'

/-- Python `str.lower` on one character (ASCII range, which is all the
programs ever produce): uppercase letters are shifted by 32. -/
def lowerChar (c : Char) : Char :=
  if 65 ≤ c.toNat ∧ c.toNat ≤ 90 then Char.ofNat (c.toNat + 32) else c

/-- Python `str.strip()`: drop leading and trailing whitespace. -/
def stripList (l : List Char) : List Char :=
  ((l.dropWhile isPySpace).reverse.dropWhile isPySpace).reverse

/-- Python `str.split('\n')`: split on newlines, keeping empty pieces. -/
def splitOnNl : List Char → List (List Char)
  | [] => [[]]
  | c :: rest =>
    if c = '\n' then [] :: splitOnNl rest
    else
      match splitOnNl rest with
      | [] => [[c]]
      | l :: ls => (c :: l) :: ls

/-- One iteration of the marker loop shared by `Level0WordleAgent.call_llm`
(level_0_wordle_agent.py:110-115), `WordleWorkflow.parse_llm_response`
(wordle_workflow.py:200-207) and `call_llm_for_guess`
(wordle-ai-workflow/main.py:263-269): strip the line, require the
`ANSWER:` prefix, take the rest, strip, lowercase, and accept it only as
a 5-letter alphabetic word. -/
def markerLine (line : List Char) : Option (List Char) :=
  let l := stripList line
  if l.take 7 = ("ANSWER:").data then
    let word := (stripList (l.drop 7)).map lowerChar
    if word.length = 5 ∧ word.all Char.isAlpha then some word else none
  else none

/-- The marker loop over `content.strip().split('\n')`: first line that
yields a valid `ANSWER:` word wins. -/
def markerScan (content : List Char) : Option (List Char) :=
  (splitOnNl (stripList content)).findSome? markerLine

/-- A regex `\b` boundary seen from one side: no neighbour, or a
non-word-character neighbour. -/
def boundaryB : Option Char → Bool
  | none => true
  | some c => !(isWordChar c)

/-- The next 5 characters exist and are all ASCII letters
(`[a-zA-Z]{5}` at the current position). -/
def fiveAlpha (l : List Char) : Bool :=
  (l.take 5).length == 5 && (l.take 5).all Char.isAlpha

/-- Leftmost match of `re.findall(r'\b[a-zA-Z]{5}\b', content)[0]`
(level_0_wordle_agent.py:116-118, wordle-ai-workflow/main.py:272-274):
scan left to right carrying the previous character for the left
boundary; match 5 letters followed by a right boundary. -/
def scanTok : Option Char → List Char → Option (List Char)
  | _, [] => none
  | prev, c :: rest =>
    if boundaryB prev && fiveAlpha (c :: rest) && boundaryB ((c :: rest).drop 5).head? then
      some ((c :: rest).take 5)
    else scanTok (some c) rest

/-- The word-extraction part of `Level0WordleAgent.call_llm`
(level_0_wordle_agent.py:102-119), identical to `call_llm_for_guess` in
wordle-ai-workflow/main.py:252-276: empty content gives `None`; else the
`ANSWER:` marker loop; else the first standalone 5-letter token of the
whole text, lowercased; else `None`.  API exceptions also yield `None`
in the source and are covered by feeding `none` to `guess_word`. -/
def call_llm_extract (content : List Char) : Option (List Char) :=
  if content = [] then none
  else
    match markerScan content with
    | some w => some w
    | none => (scanTok none content).map (List.map lowerChar)

/-- `WordleWorkflow.parse_llm_response` (wordle_workflow.py:187-207):
falsy response gives the fallback word; else the marker loop; there is
no whole-text token scan in this variant, any failure gives the fallback
word `"slope"`. -/
def parse_llm_response (resp : Option (List Char)) : List Char :=
  match resp with
  | none => ("slope").data
  | some content =>
    if content = [] then ("slope").data
    else
      match markerScan content with
      | some w => w
      | none => ("slope").data

/-- The selection logic of `Level0WordleAgent.guess_word`
(level_0_wordle_agent.py:124-139) and `guess_word` in
wordle-ai-workflow/main.py:282-311, applied to the word the LLM call
produced: keep a truthy 5-letter alphabetic word, otherwise use the
fallback word `"slope"`. -/
def guess_word (llm_word : Option (List Char)) : List Char :=
  match llm_word with
  | some w => if w ≠ [] ∧ w.length = 5 ∧ w.all Char.isAlpha then w else ("slope").data
  | none => ("slope").data

/-- Tile decoding shared by every `read_game_state` /
`read_guess_result`: map the `data-state` attribute to a result
character, anything unrecognised (tbd, empty, missing) being `'u'`. -/
def tileChar (dataState : List Char) : Char :=
  if dataState = ("correct").data then 'c'
  else if dataState = ("present").data then 'p'
  else if dataState = ("absent").data then 'a'
  else 'u'

/-- `read_game_state` (level_0_wordle_agent.py:37-57, main.py:70-116;
also `read_guess_result`, wordle-ai-workflow/main.py:165-212): the page
is its list of tile data-states; a row with too few tiles reads as
all-unknown, otherwise the five tiles of the row are decoded. -/
def read_game_state (tiles : List (List Char)) (rowIndex : Nat) : List Char :=
  let startIndex := rowIndex * 5
  let endIndex := startIndex + 5
  if tiles.length < endIndex then ("uuuuu").data
  else ((tiles.drop startIndex).take 5).map tileChar

/-- `check_game_won` (main.py:134-144, level_1_wordle_agent.py:70-71):
exact equality with the all-correct result. -/
def check_game_won (result : List Char) : Bool :=
  result == ("ccccc").data

/-- `is_game_won` (wordle-ai-workflow/main.py:215-225): exact equality
with the all-correct result. -/
def is_game_won (result : List Char) : Bool :=
  result == ("ccccc").data

/-- Python `needle in haystack` substring test. -/
def hasSubstr : List Char → List Char → Bool
  | n, [] => n.isEmpty
  | n, c :: rest => n.isPrefixOf (c :: rest) || hasSubstr n rest

/-- The error string produced by the `except` blocks of both
`execute_tool` implementations (main.py:289-290,
level_1_wordle_agent.py:183-184); the exception text is irrelevant to
the loops, which only test for the `"Error"` substring. -/
def errorResult (tool : List Char) : List Char :=
  ("Error executing tool ").data ++ tool

/-- A Python value produced by the micro-grammar of
`Level1WordleAgent.parse_action` (main.py:244-251): a double-quoted
string or a non-negative integer literal. -/
inductive PyVal where
  | s (v : List Char)
  | i (n : Nat)
deriving DecidableEq, Repr

/-- The argument dictionary built by `parse_action`, as the insertion
sequence. -/
abbrev ArgMap := List (List Char × PyVal)

/-- Python `dict` lookup on the insertion sequence: the latest value
assigned to the key, `None` when absent (a missing key raises `KeyError`
in the source, which the `execute_tool` handlers catch). -/
def getArg (args : ArgMap) (key : List Char) : Option PyVal :=
  (args.reverse.find? (fun p => p.1 == key)).map (fun p => p.2)

/-- The two shapes of final status line printed by the run loops:
`"Game won in n guesses!"` and `"Game lost after n guesses."`. -/
inductive FinalReport where
  | won (n : Nat)
  | lost (n : Nat)
deriving DecidableEq, Repr

namespace Level0

/-- `GameState` of level_0_wordle_agent.py:10-14. -/
structure GameState where
  guess_history : List (List Char × List Char)
  current_round : Nat
  max_guesses : Nat
deriving DecidableEq, Repr

/-- The level-0 agent's environment: the page's tile data-states as a
function of the read event counter (the DOM changes between reads), and
the word `guess_word` produces at each step (the LLM is external). -/
structure Env where
  tiles : Nat → List (List Char)
  guessOf : Nat → GameState → List Char

/-- `update_game_state` (level_0_wordle_agent.py:30-35): read the row of
the current round; on a result without `'u'` append the record and
advance the round; always return the result.  The read consumes one
event of the page clock. -/
def update_game_state (env : Env) (t : Nat) (gs : GameState) (guess : List Char) :
    List Char × GameState × Nat :=
  let result := read_game_state (env.tiles t) gs.current_round
  if result.contains 'u' then (result, gs, t + 1)
  else
    (result,
     { gs with
        guess_history := gs.guess_history ++ [(guess, result)],
        current_round := gs.current_round + 1 },
     t + 1)

/-- Control position inside `play_round`
(level_0_wordle_agent.py:141-161): either at the top of the body, or
inside the retry `while` loop with the round's word and the last read
result. -/
inductive Mode where
  | round
  | loop (word result : List Char)

/-- `play_round` (level_0_wordle_agent.py:141-161) with explicit fuel,
since the source recursion does not terminate on every environment:
`Mode.round` performs `guess_word`; `click_word`; `update_game_state`;
`Mode.loop` is the `while any 'u'` retry loop whose body clears, calls
`play_round` recursively and re-runs `update_game_state` with the old
word.  `none` means the fuel ran out. -/
def play (env : Env) : Nat → Mode → GameState → Nat → Option (GameState × Nat)
  | 0, Mode.round, _, _ => none
  | 0, Mode.loop _ result, gs, t =>
    if result.contains 'u' then none else some (gs, t)
  | f + 1, Mode.round, gs, t =>
    let w := env.guessOf t gs
    let u := update_game_state env t gs w
    play env f (Mode.loop w u.1) u.2.1 u.2.2
  | f + 1, Mode.loop word result, gs, t =>
    if result.contains 'u' then
      match play env f Mode.round gs t with
      | none => none
      | some (gs1, t1) =>
        let u := update_game_state env t1 gs1 word
        play env f (Mode.loop word u.1) u.2.1 u.2.2
    else some (gs, t)

/-- `Level0WordleAgent.run` (level_0_wordle_agent.py:163-169): loop
`play_round` while `current_round < max_guesses`. -/
def run_loop (env : Env) : Nat → GameState → Nat → Option (GameState × Nat)
  | 0, _, _ => none
  | f + 1, gs, t =>
    if gs.current_round < gs.max_guesses then
      match play env f Mode.round gs t with
      | none => none
      | some (gs1, t1) => run_loop env f gs1 t1
    else some (gs, t)

/-- The state built in `Level0WordleAgent.__init__`
(level_0_wordle_agent.py:63-67). -/
def initState : GameState := ⟨[], 0, 6⟩

/-- A full run of the level-0 agent from the initial state. -/
def runAgent (env : Env) (fuel : Nat) : Option (GameState × Nat) :=
  run_loop env fuel initState 0

/-- The final win test of `Level0WordleAgent.run`
(level_0_wordle_agent.py:166): non-empty history whose last result is
all-correct. -/
def game_won (gs : GameState) : Bool :=
  match gs.guess_history.getLast? with
  | some p => p.2 == ("ccccc").data
  | none => false

end Level0

namespace Waw

/-- The submission-word selection of `play_round` in
wordle-ai-workflow/main.py:329-331: take the `guess_word` result and, if
it contains the letter `'u'`, replace it by the hardcoded `"budgy"`; the
returned word is what `click_word` submits. -/
def chosen_word (llm_word : Option (List Char)) : List Char :=
  let word := guess_word llm_word
  if word.contains 'u' then ("budgy").data else word

end Waw

namespace Workflow

/-- The two attributes of `WordleWorkflow` (wordle_workflow.py:23-24):
the board read back from the page, and the game status (`None`, `"win"`
or `"loss"`). -/
structure St where
  game_state : List (List Char × List Char)
  game_status : Option (List Char)
deriving DecidableEq, Repr

/-- The workflow's environment, indexed by the submission-attempt
counter: the raw LLM response, and the result string the page shows for
that attempt.  `read_game_board` (wordle_workflow.py:141-169) is
abstracted as: the rows accepted so far, plus the just-typed row with
that result (rows without 5 letters are skipped by the source). -/
structure Env where
  llm : Nat → Option (List Char)
  result : Nat → List Char

/-- UI interactions of one round, for the clear-on-reject obligation. -/
inductive Ev where
  | click (word : List Char)
  | clear
deriving DecidableEq, Repr

/-- `WordleWorkflow.end_game` (wordle_workflow.py:172-184). -/
def end_game (st : St) (status : List Char) : St :=
  if status = ("win").data then { st with game_status := some (("win").data) }
  else if status = ("loss").data then { st with game_status := some (("loss").data) }
  else st

/-- `WordleWorkflow.play_round` (wordle_workflow.py:209-249): an
unbounded `while True` (here fuelled): get a word from the LLM through
`parse_llm_response`, click it, re-read the board; if the new row
contains `'u'`, clear the word, pop the tentative record and retry;
otherwise leave the loop and run the win/loss checks. -/
def play_round (env : Env) : Nat → St → Nat → Option (St × Nat × List Ev)
  | 0, _, _ => none
  | f + 1, st, k =>
    let word := parse_llm_response (env.llm k)
    let board := st.game_state ++ [(word, env.result k)]
    let last_result := env.result k
    if last_result.contains 'u' then
      match play_round env f { st with game_state := board.dropLast } (k + 1) with
      | none => none
      | some (st2, k2, evs) => some (st2, k2, Ev.click word :: Ev.clear :: evs)
    else
      let st1 := { st with game_state := board }
      let st2 :=
        if last_result = ("ccccc").data then end_game st1 (("win").data)
        else if board.length = 6 then end_game st1 (("loss").data)
        else st1
      some (st2, k + 1, [Ev.click word])

end Workflow

namespace Level1

/-- `GameState` of level_1_wordle_agent.py:13-17; the guess slot is a
`PyVal` because the loop feeds it straight from the parsed action
arguments. -/
structure GameState where
  guess_history : List (PyVal × List Char)
  current_round : Nat
  max_guesses : Nat
deriving DecidableEq, Repr

/-- `update_game_state` (level_1_wordle_agent.py:35-43): read the row
`current_round - 1` (the source comment: row index is 0-indexed, but
`current_round` is 1-indexed), append the record unconditionally, and
advance the round only when the result has no `'u'`. -/
def update_game_state (tiles : List (List Char)) (gs : GameState) (guess : PyVal) :
    List Char × GameState :=
  let result := read_game_state tiles (gs.current_round - 1)
  let gs1 := { gs with guess_history := gs.guess_history ++ [(guess, result)] }
  if result.contains 'u' then (result, gs1)
  else (result, { gs1 with current_round := gs1.current_round + 1 })

/-- `Level1WordleAgent.execute_tool` (level_1_wordle_agent.py:167-184):
dispatch on the tool name; a missing or non-string argument raises
inside the `try` and is caught into the error string, as is an unknown
tool name. -/
def execute_tool (tiles : List (List Char)) (gs : GameState) (tool : List Char)
    (args : ArgMap) : List Char × GameState :=
  if tool = ("click_word").data then
    match getArg args (("word").data) with
    | some (PyVal.s _) => (("Word clicked!").data, gs)
    | _ => (errorResult tool, gs)
  else if tool = ("clear_word").data then (("Word cleared!").data, gs)
  else if tool = ("update_game_state").data then
    match getArg args (("guess").data) with
    | some g =>
      let r := update_game_state tiles gs g
      (("Game state updated! Result: ").data ++ r.1, r.2)
    | none => (errorResult tool, gs)
  else (errorResult tool, gs)

/-- How `Level1WordleAgent.run` left the loop. -/
inductive ExitKind where
  | guard | cap | wonBreak | lostBreak | llmFail | crash | toolError
deriving DecidableEq, Repr

/-- Final state of a level-1 run: the state, how many loop iterations
were counted, the exit path, and the final status line the user sees
(`none` when the function ends without printing one, and on the
uncaught `parse_action` exception). -/
structure Outcome where
  gs : GameState
  iterations : Nat
  exit : ExitKind
  report : Option FinalReport
deriving DecidableEq, Repr

/-- `Level1WordleAgent.run` (level_1_wordle_agent.py:271-328) with fuel.
The LLM environment returns, per iteration: `none` for a failed or
unparseable `call_llm` (which breaks with no report); `some none` for a
JSON object on which `parse_action` raises (its `ValueError` is not
caught in `run`, so the session dies with no report); `some (some a)`
for a well-formed action.  The cap of `max_iterations = 50` breaks with
only a warning logged; the won/lost checks at the top of the body are
the only exits that print a final status. -/
def runAux (envLlm : Nat → Option (Option (List Char × ArgMap)))
    (envTiles : Nat → List (List Char)) :
    Nat → GameState → Nat → Option Outcome
  | 0, _, _ => none
  | f + 1, gs, it =>
    if gs.current_round ≤ gs.max_guesses then
      if 50 < it + 1 then some ⟨gs, it + 1, ExitKind.cap, none⟩
      else
        let last := gs.guess_history.getLast?.map (fun p => p.2)
        if last = some (("ccccc").data) then
          some ⟨gs, it + 1, ExitKind.wonBreak, some (FinalReport.won gs.current_round)⟩
        else if gs.max_guesses < gs.current_round then
          some ⟨gs, it + 1, ExitKind.lostBreak, some (FinalReport.lost (gs.current_round - 1))⟩
        else
          match envLlm (it + 1) with
          | none => some ⟨gs, it + 1, ExitKind.llmFail, none⟩
          | some none => some ⟨gs, it + 1, ExitKind.crash, none⟩
          | some (some (tool, args)) =>
            let er := execute_tool (envTiles (it + 1)) gs tool args
            if hasSubstr (("Error").data) er.1 then
              some ⟨er.2, it + 1, ExitKind.toolError, none⟩
            else runAux envLlm envTiles f er.2 (it + 1)
    else some ⟨gs, it, ExitKind.guard, none⟩

/-- The state built in `Level1WordleAgent.__init__`
(level_1_wordle_agent.py:79-83): the round counter starts at 1. -/
def initState : GameState := ⟨[], 1, 6⟩

/-- A full level-1 run from the initial state. -/
def runAgent (envLlm : Nat → Option (Option (List Char × ArgMap)))
    (envTiles : Nat → List (List Char)) : Option Outcome :=
  runAux envLlm envTiles 60 initState 0

end Level1

namespace MainPy

/-- `GameState` of main.py:24-32; guesses and results flow in from
parsed action arguments, hence `PyVal`. -/
structure GameState where
  guess_history : List (PyVal × PyVal)
  current_round : Nat
  max_guesses : Nat
  game_won : Bool
deriving DecidableEq, Repr

/-- `check_game_won` applied to a parsed argument value: a Python `int`
never equals the string `'ccccc'`. -/
def check_game_won_val (v : PyVal) : Bool :=
  match v with
  | PyVal.s r => check_game_won r
  | PyVal.i _ => false

/-- `update_game_state` (main.py:118-132): append, advance the round,
recompute `game_won`. -/
def update_game_state (gs : GameState) (guess result : PyVal) : GameState :=
  { gs with
      guess_history := gs.guess_history ++ [(guess, result)],
      current_round := gs.current_round + 1,
      game_won := check_game_won_val result }

/-- Decimal value of a digit string (`int(value)` in main.py:250). -/
def natOfDigits (l : List Char) : Nat :=
  l.foldl (fun a c => a * 10 + (c.toNat - 48)) 0

/-- One attempt of the argument regex `(\w+)\s*=\s*("[^"]*"|\d+)`
(main.py:245) at the current position: a non-empty run of word
characters, optional whitespace, `=`, optional whitespace, then either a
double-quoted string (quotes stripped) or a digit run (converted to an
integer).  Returns the pair and the rest of the input after the match.
Shorter `\w+` backtracks always fail, since the key run is followed by a
word character, so the maximal run is faithful. -/
def matchArg (l : List Char) : Option ((List Char × PyVal) × List Char) :=
  let key := l.takeWhile isWordChar
  if key = [] then none
  else
    let r1 := (l.dropWhile isWordChar).dropWhile isPySpace
    match r1 with
    | '=' :: r2 =>
      let r3 := r2.dropWhile isPySpace
      match r3 with
      | '"' :: r4 =>
        let v := r4.takeWhile (fun c => !(c == '"'))
        match r4.dropWhile (fun c => !(c == '"')) with
        | '"' :: r5 => some ((key, PyVal.s v), r5)
        | _ => none
      | _ =>
        let ds := r3.takeWhile Char.isDigit
        if ds = [] then none
        else some ((key, PyVal.i (natOfDigits ds)), r3.dropWhile Char.isDigit)
    | _ => none

/-- `findall` of the argument regex: leftmost non-overlapping matches,
advancing one character on failure.  Fuelled by the input length, which
each step consumes at least one character of. -/
def scanArgsF : Nat → List Char → ArgMap
  | 0, _ => []
  | _, [] => []
  | f + 1, c :: rest =>
    match matchArg (c :: rest) with
    | some (kv, r) => kv :: scanArgsF f r
    | none => scanArgsF f rest

/-- `Level1WordleAgent.parse_action` (main.py:222-252): match
`^(\w+)\((.*)\)$` against the stripped action (`.` does not cross
newlines; after stripping, `$` is the end, and the greedy `.*` makes the
argument text run to the last `)`), then collect the arguments.  `none`
models the `ValueError` the source raises on a failed match. -/
def parse_action (action : List Char) : Option (List Char × ArgMap) :=
  let s := stripList action
  let name := s.takeWhile isWordChar
  if name = [] then none
  else
    match s.dropWhile isWordChar with
    | '(' :: mid =>
      if mid.getLast? = some ')' ∧ ¬ mid.contains '\n' then
        let argstr := mid.dropLast
        some (name, scanArgsF argstr.length argstr)
      else none
    | _ => none

/-- `Level1WordleAgent.execute_tool` (main.py:254-290): the five-way
dispatch; every exception inside the `try` (including `KeyError` on a
missing argument and the `ValueError` on an unknown tool) becomes the
error string. -/
def execute_tool (tiles : List (List Char)) (gs : GameState) (tool : List Char)
    (args : ArgMap) : List Char × GameState :=
  if tool = ("click_word").data then
    match getArg args (("word").data) with
    | some (PyVal.s _) => (("Word clicked!").data, gs)
    | _ => (errorResult tool, gs)
  else if tool = ("clear_word").data then (("Word cleared!").data, gs)
  else if tool = ("read_game_state").data then
    match getArg args (("row_index").data) with
    | some (PyVal.i n) => (read_game_state tiles n, gs)
    | _ => (errorResult tool, gs)
  else if tool = ("update_game_state").data then
    match getArg args (("guess").data), getArg args (("result").data) with
    | some g, some r => (("Game state updated!").data, update_game_state gs g r)
    | _, _ => (errorResult tool, gs)
  else if tool = ("check_game_won").data then
    match getArg args (("result").data) with
    | some r =>
      (if check_game_won_val r then ("Game won!").data
       else ("Game still in progress.").data, gs)
    | none => (errorResult tool, gs)
  else (errorResult tool, gs)

/-- How `Level1WordleAgent.run` (main.py) left the loop. -/
inductive ExitKind where
  | guard | cap | llmFail | crash | wonBreak | toolError
deriving DecidableEq, Repr

/-- Final state of a main.py run; `report` is the status line printed
after the loop (`none` exactly when the uncaught `parse_action`
exception kills the session before it). -/
structure Outcome where
  gs : GameState
  iterations : Nat
  exit : ExitKind
  report : Option FinalReport
deriving DecidableEq, Repr

/-- The final `if/else` of `Level1WordleAgent.run` (main.py:426-429),
reached by every exit from the loop except the uncaught exception. -/
def finish (gs : GameState) (it : Nat) (k : ExitKind) : Outcome :=
  ⟨gs, it, k,
   some (if gs.game_won then FinalReport.won gs.current_round
         else FinalReport.lost gs.current_round)⟩

/-- `Level1WordleAgent.run` (main.py:391-429) with fuel.  The LLM
environment returns the `ACTION:` text `call_llm` extracted for each
iteration, or `none` for a failed/unmatched response (break, then the
final report).  `max_iterations = 30`; exceeding it breaks to the final
report.  A `parse_action` failure raises out of `run`, so the outcome
carries no report. -/
def runAux (envLlm : Nat → Option (List Char)) (envTiles : Nat → List (List Char)) :
    Nat → GameState → Nat → Option Outcome
  | 0, _, _ => none
  | f + 1, gs, it =>
    if gs.game_won = false ∧ gs.current_round < gs.max_guesses then
      if 30 < it + 1 then some (finish gs (it + 1) ExitKind.cap)
      else
        match envLlm (it + 1) with
        | none => some (finish gs (it + 1) ExitKind.llmFail)
        | some action =>
          match parse_action action with
          | none => some ⟨gs, it + 1, ExitKind.crash, none⟩
          | some (tool, args) =>
            let er := execute_tool (envTiles (it + 1)) gs tool args
            if er.1 = ("Game won!").data then some (finish er.2 (it + 1) ExitKind.wonBreak)
            else if hasSubstr (("Error").data) er.1 then
              some (finish er.2 (it + 1) ExitKind.toolError)
            else runAux envLlm envTiles f er.2 (it + 1)
    else some (finish gs it ExitKind.guard)

/-- The state built in `Level1WordleAgent.__init__` (main.py:151-156). -/
def initState : GameState := ⟨[], 0, 6, false⟩

/-- A full main.py `Level1WordleAgent` run from the initial state. -/
def runAgent (envLlm : Nat → Option (List Char)) (envTiles : Nat → List (List Char)) :
    Option Outcome :=
  runAux envLlm envTiles 40 initState 0

end MainPy

/-- The invariant of the level-0 loop: the history holds one record per
completed round and at most `max_guesses = 6` rounds ever complete. -/
def Level0.Inv (gs : Level0.GameState) : Prop :=
  gs.guess_history.length = gs.current_round ∧ gs.current_round ≤ 6

/-- A concrete healthy page for the level-0 run: the standard 30-tile
board whose rows all read `"aaaaa"` (accepted, non-winning), with the
LLM always choosing `"crane"`. -/
def Level0.demoEnv : Level0.Env :=
  ⟨fun _ => List.replicate 30 (("absent").data), fun _ _ => ("crane").data⟩

/-- The final state of the level-0 run over `Level0.demoEnv`. -/
def Level0.demoFinal : Level0.GameState :=
  ⟨List.replicate 6 ((("crane").data, ("aaaaa").data)), 6, 6⟩

/-- A 30-tile board whose tiles are all still `tbd`: every row reads as
all-unknown (a rejected submission). -/
def tilesTbd : List (List Char) := List.replicate 30 (("tbd").data)

/-- A 30-tile board whose tiles are all `absent`: rows 0-5 read as
`"aaaaa"` (an accepted, non-winning submission). -/
def tilesAbsent : List (List Char) := List.replicate 30 (("absent").data)

/-- A main.py LLM that always answers with the action `clear_word()`. -/
def MainPy.envClear : Nat → Option (List Char) :=
  fun _ => some (("clear_word()").data)

/-- A main.py LLM that always submits the same losing update action. -/
def MainPy.envLoss : Nat → Option (List Char) :=
  fun _ => some (("update_game_state(guess=\"SLOPE\", result=\"apapa\")").data)

/-- A main.py LLM whose action text matches no action grammar. -/
def MainPy.envGibberish : Nat → Option (List Char) :=
  fun _ => some (("not an action").data)

/-- A main.py LLM that calls a tool that does not exist. -/
def MainPy.envUnknownTool : Nat → Option (List Char) :=
  fun _ => some (("fly_to_moon()").data)

/-- A page environment with no tiles at all. -/
def noTiles : Nat → List (List Char) := fun _ => ([] : List (List Char))

/-- A level-1 LLM that always picks the `clear_word` action. -/
def Level1.envClear : Nat → Option (Option (List Char × ArgMap)) :=
  fun _ => some (some ((("clear_word").data), []))

/-- The workflow state built in `WordleWorkflow.__init__`
(wordle_workflow.py:23-24): empty board, no status. -/
def Workflow.initSt : Workflow.St := ⟨[], none⟩

/-- A workflow environment whose LLM always answers `ANSWER: crane` and
whose page rejects the first submission and accepts every later one as
`"aaaaa"`. -/
def Workflow.demoEnv : Workflow.Env :=
  ⟨fun _ => some (("ANSWER: crane").data),
   fun k => if k = 0 then ("uuuuu").data else ("aaaaa").data⟩

/-- A standalone 5-letter alphabetic token somewhere in the text: five
letters delimited on both sides by a regex word boundary.  This is the
validation rule of the spec, stated independently of the scanners. -/
def hasToken (content : List Char) : Prop :=
  ∃ pre run post, content = pre ++ run ++ post ∧ run.length = 5 ∧
    run.all Char.isAlpha = true ∧ boundaryB pre.getLast? = true ∧
    boundaryB post.head? = true

/-- `findSome?` skips a block of elements on which the function fails. -/
theorem findSome?_append_none {α β : Type} (L1 L2 : List α) (f : α → Option β)
    (h : ∀ x ∈ L1, f x = none) : (L1 ++ L2).findSome? f = L2.findSome? f := by
  induction L1 with
  | nil => simp
  | cons a l ih =>
    simp only [List.cons_append, List.findSome?_cons]
    rw [h a (by simp)]
    exact ih (fun x hx => h x (by simp [hx]))

/-- Pushing one character from the scanned prefix into the
previous-character slot does not change the character standing directly
before the match candidate. -/
theorem getLast?_cons_or {α : Type} (c : α) (pre : List α) (prev : Option α) :
    ((c :: pre).getLast?).or prev = (pre.getLast?).or (some c) := by
  cases pre with
  | nil => simp
  | cons a as =>
    rw [List.getLast?_cons_cons]
    cases h : (a :: as).getLast? with
    | none => rw [List.getLast?_eq_none_iff] at h; exact absurd h (by simp)
    | some x => simp

/-- Soundness of the token scan: a hit is a standalone 5-letter
alphabetic token of the text, with word boundaries on both sides (the
left neighbour being either the text's own material or the carried
previous character). -/
theorem scanTok_sound : ∀ (l : List Char) (prev : Option Char) (r : List Char),
    scanTok prev l = some r →
    ∃ pre post, l = pre ++ r ++ post ∧ r.length = 5 ∧ r.all Char.isAlpha = true ∧
      boundaryB ((pre.getLast?).or prev) = true ∧ boundaryB post.head? = true := by
  intro l
  induction l with
  | nil => intro prev r h; simp [scanTok] at h
  | cons c rest ih =>
    intro prev r h
    rw [scanTok] at h
    split at h
    case isTrue hc =>
      injection h with h'
      subst h'
      simp only [Bool.and_eq_true] at hc
      obtain ⟨⟨hb1, hf⟩, hb2⟩ := hc
      unfold fiveAlpha at hf
      simp only [Bool.and_eq_true, beq_iff_eq] at hf
      refine ⟨[], (c :: rest).drop 5, by simp, hf.1, hf.2, by simpa using hb1, hb2⟩
    case isFalse =>
      obtain ⟨pre, post, heq, h5, ha, hb1, hb2⟩ := ih (some c) r h
      refine ⟨c :: pre, post, by simp [heq], h5, ha, ?_, hb2⟩
      rw [getLast?_cons_or]
      exact hb1

/-- Completeness of the token scan: where a standalone 5-letter
alphabetic token exists, the scan finds a hit. -/
theorem scanTok_complete : ∀ (pre r post : List Char) (prev : Option Char),
    r.length = 5 → r.all Char.isAlpha = true →
    boundaryB ((pre.getLast?).or prev) = true → boundaryB post.head? = true →
    (scanTok prev (pre ++ r ++ post)).isSome = true := by
  intro pre
  induction pre with
  | nil =>
    intro r post prev h5 ha hb1 hb2
    obtain ⟨a, t, rfl⟩ : ∃ a t, r = a :: t := by
      cases r with
      | nil => simp at h5
      | cons a t => exact ⟨a, t, rfl⟩
    have e1 : ([] : List Char) ++ (a :: t) ++ post = a :: (t ++ post) := by simp
    rw [e1]
    have e2 : a :: (t ++ post) = (a :: t) ++ post := by simp
    have hcond : (boundaryB prev && fiveAlpha (a :: (t ++ post)) &&
        boundaryB ((a :: (t ++ post)).drop 5).head?) = true := by
      unfold fiveAlpha
      rw [e2, List.take_left' h5, List.drop_left' h5]
      simp only [Bool.and_eq_true, beq_iff_eq]
      exact ⟨⟨by simpa using hb1, h5, ha⟩, hb2⟩
    rw [scanTok, if_pos hcond]
    simp
  | cons c pre' ih =>
    intro r post prev h5 ha hb1 hb2
    rw [getLast?_cons_or] at hb1
    have e1 : (c :: pre') ++ r ++ post = c :: (pre' ++ r ++ post) := by simp
    rw [e1, scanTok]
    split
    · simp
    · exact ih r post (some c) h5 ha hb1 hb2

/-- The token scan hits exactly when a standalone token exists. -/
theorem hasToken_iff_scan (content : List Char) :
    hasToken content ↔ (scanTok none content).isSome = true := by
  constructor
  · rintro ⟨pre, run, post, heq, h5, ha, hb1, hb2⟩
    rw [heq]
    exact scanTok_complete pre run post none h5 ha (by simpa using hb1) hb2
  · intro h
    obtain ⟨r, hr⟩ := Option.isSome_iff_exists.mp h
    obtain ⟨pre, post, heq, h5, ha, hb1, hb2⟩ := scanTok_sound content none r hr
    exact ⟨pre, r, post, heq, h5, ha, by simpa using hb1, hb2⟩

/-- Claim C3: for every well-formed 5-character result string over
c/p/a/u, the win check succeeds exactly on the all-correct result
`"ccccc"`, equivalently exactly when every character denotes correct;
it is exact equality, not a count-based threshold. -/
theorem claim_C3_win_check :
    ∀ r : List Char, r.length = 5 →
      (∀ c ∈ r, c = 'c' ∨ c = 'p' ∨ c = 'a' ∨ c = 'u') →
      ((is_game_won r = true ↔ r = ("ccccc").data) ∧
       (check_game_won r = true ↔ r = ("ccccc").data) ∧
       (is_game_won r = true ↔ ∀ c ∈ r, c = 'c')) := by
  intro r hlen _halpha
  have h1 : is_game_won r = true ↔ r = ("ccccc").data := by
    simp [is_game_won]
  refine ⟨h1, by simp [check_game_won], ?_⟩
  rw [h1]
  constructor
  · intro h c hc
    rw [h] at hc
    have : ("ccccc").data = ['c', 'c', 'c', 'c', 'c'] := rfl
    rw [this] at hc
    simp at hc
    exact hc
  · intro h
    rcases r with _ | ⟨c0, _ | ⟨c1, _ | ⟨c2, _ | ⟨c3, _ | ⟨c4, _ | ⟨c5, r⟩⟩⟩⟩⟩⟩ <;>
      simp at hlen
    rw [h c0 (by simp), h c1 (by simp), h c2 (by simp), h c3 (by simp),
      h c4 (by simp)]

/-- Witness for claim C3 at the concrete result `"ccpac"`. -/
theorem claim_C3_witness :
    (is_game_won (("ccpac").data) = true ↔ ("ccpac").data = ("ccccc").data) ∧
    (check_game_won (("ccpac").data) = true ↔ ("ccpac").data = ("ccccc").data) ∧
    (is_game_won (("ccpac").data) = true ↔ ∀ c ∈ ("ccpac").data, c = 'c') :=
  claim_C3_win_check (("ccpac").data) (by decide) (by decide)

/-- Claim C7: the board reader always returns a result of length
exactly 5 over the alphabet c/p/a/u, and returns the all-unknown
result when fewer than `5 * (row_index + 1)` tiles are present. -/
theorem claim_C7_read_result :
    ∀ (tiles : List (List Char)) (rowIndex : Nat),
      (read_game_state tiles rowIndex).length = 5 ∧
      (∀ c ∈ read_game_state tiles rowIndex, c = 'c' ∨ c = 'p' ∨ c = 'a' ∨ c = 'u') ∧
      (tiles.length < 5 * (rowIndex + 1) → read_game_state tiles rowIndex = ("uuuuu").data) := by
  intro tiles r
  unfold read_game_state
  by_cases h : tiles.length < r * 5 + 5
  · simp only [h, if_true]
    refine ⟨by decide, by decide, by simp⟩
  · simp only [h, if_false]
    refine ⟨?_, ?_, ?_⟩
    · rw [List.length_map, List.length_take, List.length_drop]
      omega
    · intro c hc
      rw [List.mem_map] at hc
      obtain ⟨d, _, hd⟩ := hc
      rw [← hd]
      unfold tileChar
      repeat' split
      · left; rfl
      · right; left; rfl
      · right; right; left; rfl
      · right; right; right; rfl
    · intro hlt
      omega

/-- Witness for claim C7: an empty page reads as all-unknown. -/
theorem claim_C7_witness : read_game_state [] 0 = ("uuuuu").data :=
  (claim_C7_read_result [] 0).2.2 (by decide)

/-- Counterexample for claim C10 as stated: a guess containing the
letter u is replaced by the hardcoded `"budgy"` — but `"budgy"` itself
contains the letter u, so a guess containing u is submitted after all. -/
theorem claim_C10_counterexample :
    Waw.chosen_word (some (("crumb").data)) = ("budgy").data ∧
    (("budgy").data).contains 'u' = true := by decide

/-- Claim C10, amended: the round handler substitutes the hardcoded
`"budgy"` for any selected word containing u; since `"budgy"` itself
contains u, the submitted word can still contain u, but only ever as
the word `"budgy"` itself. -/
theorem claim_C10_amended :
    ∀ llm_word : Option (List Char),
      (Waw.chosen_word llm_word =
        if (guess_word llm_word).contains 'u' then ("budgy").data
        else guess_word llm_word) ∧
      ((Waw.chosen_word llm_word).contains 'u' = true →
        Waw.chosen_word llm_word = ("budgy").data) := by
  intro o
  refine ⟨rfl, ?_⟩
  intro h
  by_cases hw : (guess_word o).contains 'u' = true
  · simp only [Waw.chosen_word]
    rw [if_pos hw]
  · simp only [Waw.chosen_word] at h
    rw [if_neg hw] at h
    exact absurd h hw

/-- Witness for claim C10 (amended) at the u-containing guess
`"crumb"`. -/
theorem claim_C10_witness :
    Waw.chosen_word (some (("crumb").data)) = ("budgy").data :=
  (claim_C10_amended (some (("crumb").data))).2 (by decide)

/-- Counterexample for claim C4 as stated: this text contains the line
`"ANSWER: crane"`, yet both parsers return the word of the earlier
marker line, `"slate"`, because the loop returns the first valid marker
line. -/
theorem claim_C4_counterexample :
    call_llm_extract (("ANSWER: slate\nANSWER: crane").data) = some (("slate").data) ∧
    parse_llm_response (some (("ANSWER: slate\nANSWER: crane").data)) = ("slate").data ∧
    ("slate").data ≠ ("crane").data := by decide

/-- Claim C4, amended: if the text contains a line stripping to
`"ANSWER: crane"` and no earlier line yields a valid marker word, both
parsers return `"crane"`. -/
theorem claim_C4_amended :
    ∀ (content : List Char) (pre post : List (List Char)) (l : List Char),
      splitOnNl (stripList content) = pre ++ l :: post →
      stripList l = ("ANSWER: crane").data →
      (∀ l' ∈ pre, markerLine l' = none) →
      call_llm_extract content = some (("crane").data) ∧
      parse_llm_response (some content) = ("crane").data := by
  intro content pre post l hsplit hline hpre
  have hml : markerLine l = some (("crane").data) := by
    unfold markerLine
    rw [hline]
    decide
  have hm : markerScan content = some (("crane").data) := by
    unfold markerScan
    rw [hsplit, findSome?_append_none _ _ _ hpre, List.findSome?_cons, hml]
  have hne : ¬ content = [] := by
    intro hc
    subst hc
    have : splitOnNl (stripList []) = [[]] := by decide
    rw [this] at hsplit
    cases pre with
    | nil =>
      simp at hsplit
      rw [hsplit.1] at hline
      exact absurd hline (by decide)
    | cons a pre' => simp at hsplit
  constructor
  · unfold call_llm_extract
    rw [if_neg hne, hm]
  · show (if content = [] then ("slope").data
      else match markerScan content with
        | some w => w
        | none => ("slope").data) = ("crane").data
    rw [if_neg hne, hm]

/-- Witness for claim C4 (amended) on a concrete three-line text. -/
theorem claim_C4_witness :
    call_llm_extract (("x\nANSWER: crane\ny").data) = some (("crane").data) ∧
    parse_llm_response (some (("x\nANSWER: crane\ny").data)) = ("crane").data :=
  claim_C4_amended (("x\nANSWER: crane\ny").data) [("x").data] [("y").data]
    (("ANSWER: crane").data) (by decide) (by decide) (by decide)

/-- Counterexample for claim C5 as stated: the text has no marker line
but contains the standalone 5-letter token `"crane"`; the cited parser
`WordleWorkflow.parse_llm_response` has no whole-text scan and returns
the fallback word `"slope"` instead of the token. -/
theorem claim_C5_counterexample :
    markerScan (("hi crane yo").data) = none ∧
    scanTok none (("hi crane yo").data) = some (("crane").data) ∧
    parse_llm_response (some (("hi crane yo").data)) = ("slope").data ∧
    ("slope").data ≠ ("crane").data := by decide

/-- Claim C5, amended: in the level-0 parser (and the identical
wordle-ai-workflow one), when no marker line yields a word, the
whole-text scan returns the first standalone 5-letter token, lowercased,
and such a hit really is a boundary-delimited alphabetic token of the
text; the scan is consulted only when the marker loop fails, a found
marker word taking priority; `WordleWorkflow.parse_llm_response` has no
such scan and falls back to `"slope"` whenever the marker loop fails. -/
theorem claim_C5_amended :
    (∀ content w : List Char,
        content ≠ [] → markerScan content = none → scanTok none content = some w →
        call_llm_extract content = some (w.map lowerChar) ∧
        ∃ pre post, content = pre ++ w ++ post ∧ w.length = 5 ∧
          w.all Char.isAlpha = true ∧ boundaryB pre.getLast? = true ∧
          boundaryB post.head? = true) ∧
    (∀ content w : List Char, content ≠ [] → markerScan content = some w →
        call_llm_extract content = some w) ∧
    (∀ content : List Char, content ≠ [] → markerScan content = none →
        parse_llm_response (some content) = ("slope").data) := by
  refine ⟨?_, ?_, ?_⟩
  · intro content w hne hm hs
    constructor
    · unfold call_llm_extract
      rw [if_neg hne, hm, hs]
      rfl
    · obtain ⟨pre, post, heq, h5, ha, hb1, hb2⟩ := scanTok_sound content none w hs
      exact ⟨pre, post, heq, h5, ha, by simpa using hb1, hb2⟩
  · intro content w hne hm
    unfold call_llm_extract
    rw [if_neg hne, hm]
  · intro content hne hm
    show (if content = [] then ("slope").data
      else match markerScan content with
        | some w => w
        | none => ("slope").data) = ("slope").data
    rw [if_neg hne, hm]

/-- Witness for claim C5 (amended): a marker-free text whose first
standalone 5-letter token is `"zesty"`. -/
theorem claim_C5_witness :
    call_llm_extract (("pick zesty now").data) = some ((("zesty").data).map lowerChar) ∧
    ∃ pre post, ("pick zesty now").data = pre ++ ("zesty").data ++ post ∧
      (("zesty").data).length = 5 ∧ (("zesty").data).all Char.isAlpha = true ∧
      boundaryB pre.getLast? = true ∧ boundaryB post.head? = true :=
  claim_C5_amended.1 (("pick zesty now").data) (("zesty").data) (by decide) (by decide)
    (by decide)

/-- On the real 30-tile board, reading row 6 or beyond always yields
the all-unknown result: the tile-count guard fires. -/
theorem read_high_row_unknown (tiles : List (List Char)) (row : Nat)
    (h30 : tiles.length ≤ 30) (h6 : 6 ≤ row) :
    read_game_state tiles row = ("uuuuu").data := by
  unfold read_game_state
  rw [if_pos]
  have : 30 ≤ row * 5 := by omega
  omega

/-- `Level0.update_game_state` preserves the level-0 invariant when the
page never shows more than the 30 board tiles. -/
theorem Level0.update_inv (env : Level0.Env) (h30 : ∀ u, (env.tiles u).length ≤ 30)
    (t : Nat) (gs : Level0.GameState) (w : List Char) (hI : Level0.Inv gs) :
    Level0.Inv (Level0.update_game_state env t gs w).2.1 := by
  obtain ⟨hlen, hle⟩ := hI
  by_cases h6 : gs.current_round = 6
  · have hu : read_game_state (env.tiles t) gs.current_round = ("uuuuu").data :=
      read_high_row_unknown _ _ (h30 t) (by omega)
    simp only [Level0.update_game_state, hu]
    rw [if_pos (by decide)]
    exact ⟨hlen, hle⟩
  · simp only [Level0.update_game_state]
    split
    · exact ⟨hlen, hle⟩
    · refine ⟨?_, ?_⟩
      · simp [hlen]
      · simp
        omega

/-- `Level0.play` (both the `play_round` body and its retry loop)
preserves the level-0 invariant. -/
theorem Level0.play_inv (env : Level0.Env) (h30 : ∀ u, (env.tiles u).length ≤ 30) :
    ∀ (f : Nat) (mode : Level0.Mode) (gs : Level0.GameState) (t : Nat)
      (gs' : Level0.GameState) (t' : Nat),
      Level0.Inv gs → Level0.play env f mode gs t = some (gs', t') → Level0.Inv gs' := by
  intro f
  induction f with
  | zero =>
    intro mode gs t gs' t' hI hp
    cases mode with
    | round => simp [Level0.play] at hp
    | loop w r =>
      simp only [Level0.play] at hp
      split at hp
      · simp at hp
      · simp at hp
        obtain ⟨h1, _⟩ := hp
        rw [← h1]
        exact hI
  | succ f ih =>
    intro mode gs t gs' t' hI hp
    cases mode with
    | round =>
      simp only [Level0.play] at hp
      exact ih _ _ _ _ _ (Level0.update_inv env h30 t gs _ hI) hp
    | loop w r =>
      simp only [Level0.play] at hp
      split at hp
      · cases hplay : Level0.play env f Level0.Mode.round gs t with
        | none => rw [hplay] at hp; simp at hp
        | some p =>
          rw [hplay] at hp
          obtain ⟨gs1, t1⟩ := p
          have hI1 := ih _ _ _ _ _ hI hplay
          exact ih _ _ _ _ _ (Level0.update_inv env h30 t1 gs1 _ hI1) hp
      · simp at hp
        obtain ⟨h1, _⟩ := hp
        rw [← h1]
        exact hI

/-- `Level0.run_loop` preserves the level-0 invariant. -/
theorem Level0.run_inv (env : Level0.Env) (h30 : ∀ u, (env.tiles u).length ≤ 30) :
    ∀ (f : Nat) (gs : Level0.GameState) (t : Nat) (gs' : Level0.GameState) (t' : Nat),
      Level0.Inv gs → Level0.run_loop env f gs t = some (gs', t') → Level0.Inv gs' := by
  intro f
  induction f with
  | zero => intro gs t gs' t' hI hp; simp [Level0.run_loop] at hp
  | succ f ih =>
    intro gs t gs' t' hI hp
    simp only [Level0.run_loop] at hp
    split at hp
    · cases hplay : Level0.play env f Level0.Mode.round gs t with
      | none => rw [hplay] at hp; simp at hp
      | some p =>
        rw [hplay] at hp
        obtain ⟨gs1, t1⟩ := p
        exact ih _ _ _ _ (Level0.play_inv env h30 f _ _ _ _ _ hI hplay) hp
    · simp at hp
      obtain ⟨h1, _⟩ := hp
      rw [← h1]
      exact hI

/-- Claim C1: over the healthy board environment where every read is
accepted and non-winning, the level-0 run records exactly 6 guesses and
reports a loss; over every page environment that never shows more than
the 30 board tiles, no completed run ever records more than 6 accepted
guesses; and every state `play_round` can reach from a state satisfying
the loop invariant (which the initial state does) also stays within 6
recorded guesses. -/
theorem claim_C1_round_budget :
    ((Level0.runAgent Level0.demoEnv 20).map
        (fun p => (p.1.guess_history.length, Level0.game_won p.1)) = some (6, false)) ∧
    (∀ env : Level0.Env, (∀ u, (env.tiles u).length ≤ 30) →
      ∀ (fuel : Nat) (gs : Level0.GameState) (t : Nat),
        Level0.runAgent env fuel = some (gs, t) → gs.guess_history.length ≤ 6) ∧
    (∀ env : Level0.Env, (∀ u, (env.tiles u).length ≤ 30) →
      ∀ (f : Nat) (mode : Level0.Mode) (gs : Level0.GameState) (t : Nat)
        (gs' : Level0.GameState) (t' : Nat),
        Level0.Inv gs → Level0.play env f mode gs t = some (gs', t') →
        gs'.guess_history.length ≤ 6) := by
  refine ⟨by decide, ?_, ?_⟩
  · intro env h30 fuel gs t hr
    have hI := Level0.run_inv env h30 fuel Level0.initState 0 gs t ⟨rfl, by decide⟩ hr
    obtain ⟨h1, h2⟩ := hI
    omega
  · intro env h30 f mode gs t gs' t' hI hp
    obtain ⟨h1, h2⟩ := Level0.play_inv env h30 f mode gs t gs' t' hI hp
    omega

/-- Witness for claim C1 at the healthy board environment. -/
theorem claim_C1_witness : Level0.demoFinal.guess_history.length ≤ 6 :=
  claim_C1_round_budget.2.1 Level0.demoEnv (fun u => by simp [Level0.demoEnv]) 20
    Level0.demoFinal 6 (by decide)

/-- `end_game` only touches the status, never the board. -/
theorem Workflow.end_game_board (s : Workflow.St) (x : List Char) :
    (Workflow.end_game s x).game_state = s.game_state := by
  unfold Workflow.end_game
  split_ifs <;> rfl

/-- Counterexample for claim C2 as stated: in level_1_wordle_agent.py's
`update_game_state` the tentative record of a rejected submission is
appended and never discarded, so a rejection (all-tbd row) followed by
an acceptance leaves two records in the history for that round, not
exactly one — though the round counter does advance by exactly 1. -/
theorem claim_C2_counterexample :
    (Level1.update_game_state tilesTbd Level1.initState
        (PyVal.s (("crane").data))).2.current_round = 1 ∧
    (Level1.update_game_state tilesTbd Level1.initState
        (PyVal.s (("crane").data))).2.guess_history.length = 1 ∧
    (Level1.update_game_state tilesAbsent
        (Level1.update_game_state tilesTbd Level1.initState
          (PyVal.s (("crane").data))).2
        (PyVal.s (("slope").data))).2.current_round = 2 ∧
    (Level1.update_game_state tilesAbsent
        (Level1.update_game_state tilesTbd Level1.initState
          (PyVal.s (("crane").data))).2
        (PyVal.s (("slope").data))).2.guess_history.length = 2 := by decide

/-- Claim C2, amended: in `WordleWorkflow.play_round` a rejected
submission triggers the clear action, the tentative record is popped and
the same round is retried, so a rejection followed by an acceptance adds
exactly one record and advances the round counter (the board length) by
exactly 1.  In level_1_wordle_agent.py's `update_game_state` the round
counter likewise does not advance on rejection, but the tentative record
is appended permanently and never discarded. -/
theorem claim_C2_amended :
    (∀ (env : Workflow.Env) (st : Workflow.St) (k : Nat),
        (env.result k).contains 'u' = true →
        (env.result (k + 1)).contains 'u' = false →
        (Workflow.play_round env 2 st k).map
            (fun r => (r.1.game_state, r.2.1, r.2.2)) =
          some (st.game_state ++
              [(parse_llm_response (env.llm (k + 1)), env.result (k + 1))], k + 2,
            [Workflow.Ev.click (parse_llm_response (env.llm k)), Workflow.Ev.clear,
             Workflow.Ev.click (parse_llm_response (env.llm (k + 1)))])) ∧
    (∀ (tiles : List (List Char)) (gs : Level1.GameState) (g : PyVal),
        (Level1.update_game_state tiles gs g).1.contains 'u' = true →
        (Level1.update_game_state tiles gs g).2.current_round = gs.current_round ∧
        (Level1.update_game_state tiles gs g).2.guess_history =
          gs.guess_history ++ [(g, (Level1.update_game_state tiles gs g).1)]) := by
  constructor
  · intro env st k h1 h2
    have hd : (st.game_state ++
        [(parse_llm_response (env.llm k), env.result k)]).dropLast = st.game_state :=
      List.dropLast_concat
    simp only [Workflow.play_round, h1, if_true, hd]
    simp only [h2, Bool.false_eq_true, if_false]
    simp [apply_ite (fun s : Workflow.St => s.game_state), Workflow.end_game_board]
  · intro tiles gs g h
    have hres : (Level1.update_game_state tiles gs g).1 =
        read_game_state tiles (gs.current_round - 1) := by
      simp only [Level1.update_game_state]
      split <;> rfl
    rw [hres] at h
    rw [hres]
    simp only [Level1.update_game_state, h, if_true]
    exact ⟨trivial, trivial⟩

/-- Witness for claim C2 (amended) over the concrete reject-then-accept
environment. -/
theorem claim_C2_witness :
    (Workflow.play_round Workflow.demoEnv 2 Workflow.initSt 0).map
        (fun r => (r.1.game_state, r.2.1, r.2.2)) =
      some (Workflow.initSt.game_state ++
          [(parse_llm_response (Workflow.demoEnv.llm (0 + 1)),
            Workflow.demoEnv.result (0 + 1))], 0 + 2,
        [Workflow.Ev.click (parse_llm_response (Workflow.demoEnv.llm 0)),
         Workflow.Ev.clear,
         Workflow.Ev.click (parse_llm_response (Workflow.demoEnv.llm (0 + 1)))]) :=
  claim_C2_amended.1 Workflow.demoEnv Workflow.initSt 0 (by decide) (by decide)

/-- A list is a prefix of itself followed by anything. -/
theorem isPrefixOf_self_append (n rest : List Char) : n.isPrefixOf (n ++ rest) = true := by
  induction n with
  | nil => simp [List.isPrefixOf]
  | cons a as ih =>
    show (a :: as).isPrefixOf (a :: (as ++ rest)) = true
    simp [List.isPrefixOf, ih]

/-- A leading match is in particular a substring. -/
theorem hasSubstr_of_isPrefixOf (n l : List Char) (h : n.isPrefixOf l = true) :
    hasSubstr n l = true := by
  cases l with
  | nil =>
    cases n with
    | nil => rfl
    | cons a as => simp [List.isPrefixOf] at h
  | cons c cs =>
    rw [hasSubstr, h]
    rfl

/-- The tool error string always contains `"Error"`, so both run loops
detect it. -/
theorem hasSubstr_errorResult (tool : List Char) :
    hasSubstr (("Error").data) (errorResult tool) = true := by
  apply hasSubstr_of_isPrefixOf
  have h : errorResult tool = ("Error").data ++ ((" executing tool ").data ++ tool) := rfl
  rw [h]
  exact isPrefixOf_self_append _ _

/-- The tool error string is never the win sentinel. -/
theorem errorResult_ne_won (tool : List Char) : ¬ errorResult tool = ("Game won!").data := by
  intro h
  have hl := congrArg List.length h
  simp [errorResult] at hl

/-- Termination and cap behaviour of the main.py run loop: under every
environment the loop yields an outcome within 31 counted iterations, and
when it exits through the iteration cap the printed report is the
regular loss line for the current round — there is no separate aborted
report. -/
theorem MainPy.run_bounded_main (envLlm : Nat → Option (List Char))
    (envTiles : Nat → List (List Char)) :
    ∀ (f it : Nat) (gs : MainPy.GameState), it ≤ 30 → 30 - it < f →
      ∃ o, MainPy.runAux envLlm envTiles f gs it = some o ∧ o.iterations ≤ 31 ∧
        (o.exit = MainPy.ExitKind.cap →
          o.report = some (FinalReport.lost o.gs.current_round)) := by
  intro f
  induction f with
  | zero => intro it gs h1 h2; omega
  | succ f ih =>
    intro it gs h1 h2
    by_cases hguard : gs.game_won = false ∧ gs.current_round < gs.max_guesses
    case neg =>
      refine ⟨MainPy.finish gs it MainPy.ExitKind.guard, ?_,
        by simp [MainPy.finish]; omega, by intro hk; simp [MainPy.finish] at hk⟩
      simp only [MainPy.runAux]
      rw [if_neg hguard]
    case pos =>
      by_cases hcap : 30 < it + 1
      · refine ⟨MainPy.finish gs (it + 1) MainPy.ExitKind.cap, ?_,
          by simp [MainPy.finish]; omega, ?_⟩
        · simp only [MainPy.runAux]
          rw [if_pos hguard, if_pos hcap]
        · intro _
          simp [MainPy.finish, hguard.1]
      · cases hllm : envLlm (it + 1) with
        | none =>
          refine ⟨MainPy.finish gs (it + 1) MainPy.ExitKind.llmFail, ?_,
            by simp [MainPy.finish]; omega, by intro hk; simp [MainPy.finish] at hk⟩
          simp only [MainPy.runAux]
          rw [if_pos hguard, if_neg hcap]
          simp only [hllm]
        | some act =>
          cases hpa : MainPy.parse_action act with
          | none =>
            refine ⟨⟨gs, it + 1, MainPy.ExitKind.crash, none⟩, ?_,
              by simp; omega, by intro hk; simp at hk⟩
            simp only [MainPy.runAux]
            rw [if_pos hguard, if_neg hcap]
            simp only [hllm, hpa]
          | some pa =>
            obtain ⟨tool, args⟩ := pa
            by_cases hwon :
                (MainPy.execute_tool (envTiles (it + 1)) gs tool args).1 = ("Game won!").data
            · refine ⟨MainPy.finish (MainPy.execute_tool (envTiles (it + 1)) gs tool args).2
                  (it + 1) MainPy.ExitKind.wonBreak, ?_,
                by simp [MainPy.finish]; omega, by intro hk; simp [MainPy.finish] at hk⟩
              simp only [MainPy.runAux]
              rw [if_pos hguard, if_neg hcap]
              simp only [hllm, hpa]
              rw [if_pos hwon]
            · by_cases herr : hasSubstr (("Error").data)
                  (MainPy.execute_tool (envTiles (it + 1)) gs tool args).1 = true
              · refine ⟨MainPy.finish (MainPy.execute_tool (envTiles (it + 1)) gs tool args).2
                    (it + 1) MainPy.ExitKind.toolError, ?_,
                  by simp [MainPy.finish]; omega, by intro hk; simp [MainPy.finish] at hk⟩
                simp only [MainPy.runAux]
                rw [if_pos hguard, if_neg hcap]
                simp only [hllm, hpa]
                rw [if_neg hwon, if_pos herr]
              · obtain ⟨o, ho, hb, hc⟩ :=
                  ih (it + 1) (MainPy.execute_tool (envTiles (it + 1)) gs tool args).2
                    (by omega) (by omega)
                refine ⟨o, ?_, hb, hc⟩
                simp only [MainPy.runAux]
                rw [if_pos hguard, if_neg hcap]
                simp only [hllm, hpa]
                rw [if_neg hwon, if_neg herr]
                exact ho

/-- Termination and cap behaviour of the level-1 run loop: under every
environment the loop yields an outcome within 51 counted iterations, and
on the iteration-cap exit the function ends without printing any final
status line at all. -/
theorem Level1.run_bounded_l1 (envLlm : Nat → Option (Option (List Char × ArgMap)))
    (envTiles : Nat → List (List Char)) :
    ∀ (f it : Nat) (gs : Level1.GameState), it ≤ 50 → 50 - it < f →
      ∃ o, Level1.runAux envLlm envTiles f gs it = some o ∧ o.iterations ≤ 51 ∧
        (o.exit = Level1.ExitKind.cap → o.report = none) := by
  intro f
  induction f with
  | zero => intro it gs h1 h2; omega
  | succ f ih =>
    intro it gs h1 h2
    by_cases hguard : gs.current_round ≤ gs.max_guesses
    case neg =>
      refine ⟨⟨gs, it, Level1.ExitKind.guard, none⟩, ?_,
        by simp; omega, by intro hk; simp at hk⟩
      simp only [Level1.runAux]
      rw [if_neg hguard]
    case pos =>
      by_cases hcap : 50 < it + 1
      · refine ⟨⟨gs, it + 1, Level1.ExitKind.cap, none⟩, ?_,
          by simp; omega, fun _ => rfl⟩
        simp only [Level1.runAux]
        rw [if_pos hguard, if_pos hcap]
      · by_cases hwon :
            gs.guess_history.getLast?.map (fun p => p.2) = some (("ccccc").data)
        · refine ⟨⟨gs, it + 1, Level1.ExitKind.wonBreak,
              some (FinalReport.won gs.current_round)⟩, ?_,
            by simp; omega, by intro hk; simp at hk⟩
          simp only [Level1.runAux]
          rw [if_pos hguard, if_neg hcap, if_pos hwon]
        · by_cases hlost : gs.max_guesses < gs.current_round
          · refine ⟨⟨gs, it + 1, Level1.ExitKind.lostBreak,
                some (FinalReport.lost (gs.current_round - 1))⟩, ?_,
              by simp; omega, by intro hk; simp at hk⟩
            simp only [Level1.runAux]
            rw [if_pos hguard, if_neg hcap, if_neg hwon, if_pos hlost]
          · cases hllm : envLlm (it + 1) with
            | none =>
              refine ⟨⟨gs, it + 1, Level1.ExitKind.llmFail, none⟩, ?_,
                by simp; omega, by intro hk; simp at hk⟩
              simp only [Level1.runAux]
              rw [if_pos hguard, if_neg hcap, if_neg hwon, if_neg hlost]
              simp only [hllm]
            | some pa =>
              cases pa with
              | none =>
                refine ⟨⟨gs, it + 1, Level1.ExitKind.crash, none⟩, ?_,
                  by simp; omega, by intro hk; simp at hk⟩
                simp only [Level1.runAux]
                rw [if_pos hguard, if_neg hcap, if_neg hwon, if_neg hlost]
                simp only [hllm]
              | some p =>
                obtain ⟨tool, args⟩ := p
                by_cases herr : hasSubstr (("Error").data)
                    (Level1.execute_tool (envTiles (it + 1)) gs tool args).1 = true
                · refine ⟨⟨(Level1.execute_tool (envTiles (it + 1)) gs tool args).2,
                      it + 1, Level1.ExitKind.toolError, none⟩, ?_,
                    by simp; omega, by intro hk; simp at hk⟩
                  simp only [Level1.runAux]
                  rw [if_pos hguard, if_neg hcap, if_neg hwon, if_neg hlost]
                  simp only [hllm]
                  rw [if_pos herr]
                · obtain ⟨o, ho, hb, hc⟩ :=
                    ih (it + 1) (Level1.execute_tool (envTiles (it + 1)) gs tool args).2
                      (by omega) (by omega)
                  refine ⟨o, ?_, hb, hc⟩
                  simp only [Level1.runAux]
                  rw [if_pos hguard, if_neg hcap, if_neg hwon, if_neg hlost]
                  simp only [hllm]
                  rw [if_neg herr]
                  exact ho

/-- Counterexample for claim C8 as stated: when the iteration ceiling is
exceeded, main.py's loop prints the ordinary loss line (`report` is the
same `FinalReport.lost` shape a genuine 6-round loss produces, here for
round 0), and level_1's loop ends with no final status at all — neither
loop has a distinct Aborted terminal state reported distinctly from
Lost. -/
theorem claim_C8_counterexample :
    MainPy.runAgent MainPy.envClear noTiles =
      some ⟨MainPy.initState, 31, MainPy.ExitKind.cap, some (FinalReport.lost 0)⟩ ∧
    MainPy.runAgent MainPy.envLoss noTiles =
      some ⟨⟨List.replicate 6 (PyVal.s (("SLOPE").data), PyVal.s (("apapa").data)),
             6, 6, false⟩, 6, MainPy.ExitKind.guard, some (FinalReport.lost 6)⟩ ∧
    Level1.runAgent Level1.envClear noTiles =
      some ⟨Level1.initState, 51, Level1.ExitKind.cap, none⟩ := by decide

/-- Claim C8, amended: both loops do bound the total number of
iterations (accepted plus rejected plus any other action) by a fixed
ceiling — 30 in main.py, 50 in level_1 — and always terminate within
one iteration past it; but exceeding the ceiling does not produce a
distinct Aborted status: main.py reports the cap exit with the ordinary
loss line for the current round, and level_1 ends with no final report
at all. -/
theorem claim_C8_amended :
    (∀ (envLlm : Nat → Option (List Char)) (envTiles : Nat → List (List Char)),
      ∃ o, MainPy.runAgent envLlm envTiles = some o ∧ o.iterations ≤ 31 ∧
        (o.exit = MainPy.ExitKind.cap →
          o.report = some (FinalReport.lost o.gs.current_round))) ∧
    (∀ (envLlm : Nat → Option (Option (List Char × ArgMap)))
        (envTiles : Nat → List (List Char)),
      ∃ o, Level1.runAgent envLlm envTiles = some o ∧ o.iterations ≤ 51 ∧
        (o.exit = Level1.ExitKind.cap → o.report = none)) := by
  constructor
  · intro envLlm envTiles
    exact MainPy.run_bounded_main envLlm envTiles 40 0 MainPy.initState (by omega) (by omega)
  · intro envLlm envTiles
    exact Level1.run_bounded_l1 envLlm envTiles 60 0 Level1.initState (by omega) (by omega)

/-- Witness for claim C8 (amended) at the always-clearing environment. -/
theorem claim_C8_witness :
    ∃ o, MainPy.runAgent MainPy.envClear noTiles = some o ∧ o.iterations ≤ 31 ∧
      (o.exit = MainPy.ExitKind.cap →
        o.report = some (FinalReport.lost o.gs.current_round)) :=
  claim_C8_amended.1 MainPy.envClear noTiles

/-- Counterexample for claim C9 as stated: a malformed action does
signal a parse failure, but that failure is a `ValueError` that `run`
never catches — the session dies mid-round with no final status report
(`report = none`), an unhandled crash. -/
theorem claim_C9_counterexample :
    MainPy.parse_action (("not an action").data) = none ∧
    MainPy.runAgent MainPy.envGibberish noTiles =
      some ⟨MainPy.initState, 1, MainPy.ExitKind.crash, none⟩ := by decide

/-- Claim C9, amended: malformed action text fails in `parse_action`
(an uncaught `ValueError`), which is a different failure path from an
unrecognized tool name, whose `ValueError` is caught inside
`execute_tool` and returned as an error string; the two are
distinguishable (crash versus error-result), but the parse failure
crashes `run` with no final status report, while the unknown-tool
failure breaks the loop and still prints the final status. -/
theorem claim_C9_amended :
    (∀ (envLlm : Nat → Option (List Char)) (envTiles : Nat → List (List Char))
        (act : List Char),
      envLlm 1 = some act → MainPy.parse_action act = none →
      MainPy.runAgent envLlm envTiles =
        some ⟨MainPy.initState, 1, MainPy.ExitKind.crash, none⟩) ∧
    (∀ (envLlm : Nat → Option (List Char)) (envTiles : Nat → List (List Char))
        (act tool : List Char) (args : ArgMap),
      envLlm 1 = some act → MainPy.parse_action act = some (tool, args) →
      ¬ tool = ("click_word").data → ¬ tool = ("clear_word").data →
      ¬ tool = ("read_game_state").data → ¬ tool = ("update_game_state").data →
      ¬ tool = ("check_game_won").data →
      MainPy.execute_tool (envTiles 1) MainPy.initState tool args =
        (errorResult tool, MainPy.initState) ∧
      MainPy.runAgent envLlm envTiles =
        some ⟨MainPy.initState, 1, MainPy.ExitKind.toolError, some (FinalReport.lost 0)⟩) := by
  constructor
  · intro envLlm envTiles act hL hpa
    show MainPy.runAux envLlm envTiles (39 + 1) MainPy.initState 0 =
      some ⟨MainPy.initState, 1, MainPy.ExitKind.crash, none⟩
    generalize (39 : Nat) = f
    simp only [MainPy.runAux]
    rw [if_pos (by decide :
      MainPy.initState.game_won = false ∧
        MainPy.initState.current_round < MainPy.initState.max_guesses)]
    rw [if_neg (by decide : ¬ (30 < 0 + 1))]
    rw [show envLlm (0 + 1) = some act from hL]
    simp only [hpa]
  · intro envLlm envTiles act tool args hL hpa h1 h2 h3 h4 h5
    have hexec : MainPy.execute_tool (envTiles 1) MainPy.initState tool args =
        (errorResult tool, MainPy.initState) := by
      unfold MainPy.execute_tool
      rw [if_neg h1, if_neg h2, if_neg h3, if_neg h4, if_neg h5]
    refine ⟨hexec, ?_⟩
    show MainPy.runAux envLlm envTiles (39 + 1) MainPy.initState 0 =
      some ⟨MainPy.initState, 1, MainPy.ExitKind.toolError, some (FinalReport.lost 0)⟩
    generalize (39 : Nat) = f
    simp only [MainPy.runAux]
    rw [if_pos (by decide :
      MainPy.initState.game_won = false ∧
        MainPy.initState.current_round < MainPy.initState.max_guesses)]
    rw [if_neg (by decide : ¬ (30 < 0 + 1))]
    rw [show envLlm (0 + 1) = some act from hL]
    simp only [hpa]
    have hexec' : MainPy.execute_tool (envTiles (0 + 1)) MainPy.initState tool args =
        (errorResult tool, MainPy.initState) := hexec
    simp only [hexec']
    rw [if_neg (errorResult_ne_won tool)]
    rw [if_pos (hasSubstr_errorResult tool)]
    rfl

/-- Witness for claim C9 (amended) at a well-formed action with a tool
name the dispatcher does not know. -/
theorem claim_C9_witness :
    MainPy.execute_tool (noTiles 1) MainPy.initState (("fly_to_moon").data) [] =
      (errorResult (("fly_to_moon").data), MainPy.initState) ∧
    MainPy.runAgent MainPy.envUnknownTool noTiles =
      some ⟨MainPy.initState, 1, MainPy.ExitKind.toolError, some (FinalReport.lost 0)⟩ :=
  claim_C9_amended.2 MainPy.envUnknownTool noTiles (("fly_to_moon()").data)
    (("fly_to_moon").data) [] (by decide) (by decide) (by decide) (by decide) (by decide)
    (by decide) (by decide)

/-- Whitespace is never a regex word character. -/
theorem not_wordChar_of_pySpace (c : Char) (h : isPySpace c = true) :
    isWordChar c = false := by
  simp only [isPySpace, Bool.or_eq_true, decide_eq_true_eq] at h
  rcases h with ((((h | h) | h) | h) | h) | h <;> subst h <;> decide

/-- If the lowercased character is a letter, so was the original: the
shift only moves uppercase letters, which are letters already. -/
theorem isAlpha_of_isAlpha_lowerChar (c : Char) (h : (lowerChar c).isAlpha = true) :
    c.isAlpha = true := by
  unfold lowerChar at h
  split at h
  case isTrue hc =>
    have hu : c.isUpper = true := by
      unfold Char.isUpper
      simp only [Bool.and_eq_true, decide_eq_true_eq, ge_iff_le, UInt32.le_def, BitVec.le_def]
      exact ⟨hc.1, hc.2⟩
    simp [Char.isAlpha, hu]
  case isFalse => exact h

/-- An all-alphabetic lowercased word comes from an all-alphabetic
word. -/
theorem all_isAlpha_of_map_lowerChar (l : List Char)
    (h : (l.map lowerChar).all Char.isAlpha = true) : l.all Char.isAlpha = true := by
  rw [List.all_map] at h
  rw [List.all_eq_true] at h ⊢
  intro x hx
  exact isAlpha_of_isAlpha_lowerChar x (h x hx)

/-- Stripping decomposes a list into whitespace, the stripped core, and
whitespace. -/
theorem stripList_decomp (l : List Char) :
    ∃ a b, l = a ++ (stripList l ++ b) ∧ (∀ c ∈ a, isPySpace c = true) ∧
      (∀ c ∈ b, isPySpace c = true) := by
  refine ⟨l.takeWhile isPySpace,
    ((l.dropWhile isPySpace).reverse.takeWhile isPySpace).reverse, ?_, ?_, ?_⟩
  · conv_lhs => rw [← List.takeWhile_append_dropWhile (p := isPySpace) (l := l)]
    congr 1
    unfold stripList
    rw [← List.reverse_append, List.takeWhile_append_dropWhile, List.reverse_reverse]
  · intro c hc
    exact List.mem_takeWhile_imp hc
  · intro c hc
    rw [List.mem_reverse] at hc
    exact List.mem_takeWhile_imp hc

/-- The first line produced by the newline split is a prefix of the
input, followed by nothing or by a chunk starting with a newline. -/
theorem splitOnNl_head : ∀ l : List Char, ∃ L0 Ls q, splitOnNl l = L0 :: Ls ∧
    l = L0 ++ q ∧ (q = [] ∨ q.head? = some '\n') := by
  intro l
  induction l with
  | nil => exact ⟨[], [], [], rfl, rfl, Or.inl rfl⟩
  | cons c rest ih =>
    by_cases hc : c = '\n'
    · subst hc
      exact ⟨[], splitOnNl rest, '\n' :: rest, by simp [splitOnNl], rfl, Or.inr rfl⟩
    · obtain ⟨L0, Ls, q, hsp, hdec, hq⟩ := ih
      refine ⟨c :: L0, Ls, q, by simp [splitOnNl, hc, hsp], ?_, hq⟩
      rw [hdec]
      simp

/-- Every line produced by the newline split is a contiguous piece of
the input whose right context is empty or starts with a newline. -/
theorem splitOnNl_mem : ∀ l line : List Char, line ∈ splitOnNl l →
    ∃ pre post, l = pre ++ line ++ post ∧ (post = [] ∨ post.head? = some '\n') := by
  intro l
  induction l with
  | nil =>
    intro line h
    simp [splitOnNl] at h
    subst h
    exact ⟨[], [], rfl, Or.inl rfl⟩
  | cons c rest ih =>
    intro line h
    by_cases hc : c = '\n'
    · subst hc
      rw [show splitOnNl ('\n' :: rest) = [] :: splitOnNl rest from by simp [splitOnNl]] at h
      rcases List.mem_cons.mp h with h | h
      · subst h
        exact ⟨[], '\n' :: rest, rfl, Or.inr rfl⟩
      · obtain ⟨pre, post, hdec, hq⟩ := ih line h
        refine ⟨'\n' :: pre, post, ?_, hq⟩
        rw [hdec]
        simp
    · obtain ⟨L0, Ls, q, hsp, hdec0, hq0⟩ := splitOnNl_head rest
      rw [show splitOnNl (c :: rest) = (c :: L0) :: Ls from by simp [splitOnNl, hc, hsp]] at h
      rcases List.mem_cons.mp h with h | h
      · subst h
        refine ⟨[], q, ?_, hq0⟩
        rw [hdec0]
        simp
      · have h' : line ∈ splitOnNl rest := by
          rw [hsp]
          exact List.mem_cons_of_mem _ h
        obtain ⟨pre, post, hdec, hq⟩ := ih line h'
        refine ⟨c :: pre, post, ?_, hq⟩
        rw [hdec]
        simp

/-- A successful `findSome?` comes from some member of the list. -/
theorem findSome?_mem {α β : Type} (L : List α) (f : α → Option β) (b : β)
    (h : L.findSome? f = some b) : ∃ x ∈ L, f x = some b := by
  induction L with
  | nil => simp [List.findSome?] at h
  | cons a l ih =>
    rw [List.findSome?_cons] at h
    cases hf : f a with
    | some c =>
      simp only [hf] at h
      exact ⟨a, by simp, by rw [hf]; exact h⟩
    | none =>
      simp only [hf] at h
      obtain ⟨x, hx, hfx⟩ := ih h
      exact ⟨x, List.mem_cons_of_mem _ hx, hfx⟩

/-- `getLast?` of an append favours the right part. -/
theorem getLast?_append_or {α : Type} (A B : List α) :
    (A ++ B).getLast? = (B.getLast?).or (A.getLast?) := by
  rw [List.getLast?_eq_head?_reverse, List.reverse_append, List.head?_append,
    ← List.getLast?_eq_head?_reverse, ← List.getLast?_eq_head?_reverse]

/-- A successful marker line decomposes as whitespace, the `ANSWER:`
prefix, whitespace, a 5-letter alphabetic word, and whitespace; the
returned word is its lowercasing. -/
theorem markerLine_decomp (line w : List Char) (h : markerLine line = some w) :
    ∃ ws1 ws3 w0 ws4 ws2 : List Char,
      line = ws1 ++ ((("ANSWER:").data ++ (ws3 ++ (w0 ++ ws4))) ++ ws2) ∧
      (∀ c ∈ ws1, isPySpace c = true) ∧ (∀ c ∈ ws2, isPySpace c = true) ∧
      (∀ c ∈ ws3, isPySpace c = true) ∧ (∀ c ∈ ws4, isPySpace c = true) ∧
      w0.length = 5 ∧ w0.all Char.isAlpha = true ∧ w = w0.map lowerChar := by
  simp only [markerLine] at h
  split at h
  case isFalse => simp at h
  case isTrue htake =>
    split at h
    case isFalse => simp at h
    case isTrue hvalid =>
      injection h with hw
      obtain ⟨ws1, ws2, hline, h1, h2⟩ := stripList_decomp line
      obtain ⟨ws3, ws4, hdrop, h3, h4⟩ := stripList_decomp ((stripList line).drop 7)
      refine ⟨ws1, ws3, stripList ((stripList line).drop 7), ws4, ws2, ?_, h1, h2, h3, h4,
        ?_, ?_, hw.symm⟩
      · conv_lhs => rw [hline]
        congr 1
        congr 1
        conv_lhs => rw [← List.take_append_drop 7 (stripList line)]
        rw [htake]
        congr 1
      · have h5 := hvalid.1
        rwa [List.length_map] at h5
      · exact all_isAlpha_of_map_lowerChar _ hvalid.2

/-- The character standing directly before the marker word is `':'` or
whitespace — never a word character. -/
theorem boundary_left_marker (X ws3 : List Char) (h3 : ∀ c ∈ ws3, isPySpace c = true) :
    boundaryB ((X ++ (("ANSWER:").data ++ ws3)).getLast?) = true := by
  rw [getLast?_append_or, getLast?_append_or]
  cases hl : ws3.getLast? with
  | some x =>
    have hx := h3 x (List.mem_of_getLast?_eq_some hl)
    rw [Option.or_some, Option.or_some]
    simp [boundaryB, not_wordChar_of_pySpace x hx]
  | none =>
    rw [Option.none_or]
    rw [show (("ANSWER:").data).getLast? = some ':' from rfl]
    rw [Option.or_some]
    decide

/-- The character standing directly after the marker word is
whitespace, a line break, or nothing — never a word character. -/
theorem boundary_right_marker (ws4 ws2 post wsB : List Char)
    (h4 : ∀ c ∈ ws4, isPySpace c = true) (h2 : ∀ c ∈ ws2, isPySpace c = true)
    (hpost : post = [] ∨ post.head? = some '\n') (hB : ∀ c ∈ wsB, isPySpace c = true) :
    boundaryB ((ws4 ++ (ws2 ++ (post ++ wsB))).head?) = true := by
  cases ws4 with
  | cons a l => simp [boundaryB, not_wordChar_of_pySpace a (h4 a (by simp))]
  | nil =>
    simp only [List.nil_append]
    cases ws2 with
    | cons a l => simp [boundaryB, not_wordChar_of_pySpace a (h2 a (by simp))]
    | nil =>
      simp only [List.nil_append]
      rcases hpost with hp | hp
      · subst hp
        simp only [List.nil_append]
        cases wsB with
        | nil => rfl
        | cons a l => simp [boundaryB, not_wordChar_of_pySpace a (hB a (by simp))]
      · rw [List.head?_append, hp, Option.or_some]
        decide

/-- If the marker loop finds a word in the text, the text contains a
standalone 5-letter alphabetic token (the word as it appears, before
lowercasing). -/
theorem markerScan_hasToken (content w : List Char) (h : markerScan content = some w) :
    hasToken content := by
  unfold markerScan at h
  obtain ⟨line, hmem, hline⟩ := findSome?_mem _ _ _ h
  obtain ⟨ws1, ws3, w0, ws4, ws2, hldec, h1, h2, h3, h4, h5, halpha, _⟩ :=
    markerLine_decomp line w hline
  obtain ⟨pre, post, hsdec, hpost⟩ := splitOnNl_mem (stripList content) line hmem
  obtain ⟨wsA, wsB, hcdec, hA, hB⟩ := stripList_decomp content
  refine ⟨(wsA ++ (pre ++ ws1)) ++ (("ANSWER:").data ++ ws3), w0,
    ws4 ++ (ws2 ++ (post ++ wsB)), ?_, h5, halpha,
    boundary_left_marker _ _ h3, boundary_right_marker _ _ _ _ h4 h2 hpost hB⟩
  rw [hcdec, hsdec, hldec]
  simp [List.append_assoc]

/-- Claim C6: for text containing no standalone 5-letter alphabetic
token anywhere (including the empty text), the parser returns `None`
(never an exception — source failures are returned, not raised), and
the guess-acquisition step substitutes the fixed fallback word
`"slope"`, also when the LLM response is absent altogether. -/
theorem claim_C6_no_token_fallback :
    ∀ content : List Char, ¬ hasToken content →
      call_llm_extract content = none ∧
      guess_word (call_llm_extract content) = ("slope").data ∧
      guess_word none = ("slope").data := by
  intro content h
  have hscan : scanTok none content = none := by
    cases hs : scanTok none content with
    | none => rfl
    | some r => exact absurd ((hasToken_iff_scan content).mpr (by rw [hs]; rfl)) h
  have hmark : markerScan content = none := by
    cases hm : markerScan content with
    | none => rfl
    | some w => exact absurd (markerScan_hasToken content w hm) h
  have hex : call_llm_extract content = none := by
    unfold call_llm_extract
    by_cases hc : content = []
    · rw [if_pos hc]
    · rw [if_neg hc, hmark, hscan]
      rfl
  exact ⟨hex, by rw [hex]; rfl, rfl⟩

/-- Witness for claim C6 on a token-free text. -/
theorem claim_C6_witness :
    call_llm_extract (("no luck at all!!").data) = none ∧
    guess_word (call_llm_extract (("no luck at all!!").data)) = ("slope").data ∧
    guess_word none = ("slope").data :=
  claim_C6_no_token_fallback (("no luck at all!!").data)
    (fun h => by
      have hs := (hasToken_iff_scan (("no luck at all!!").data)).mp h
      revert hs
      decide)
